import Mathlib

/-!
Verification development for the AI Website Builder repository.

Two components are embedded from the source:

* the response-coercion step of `WebsiteGenerator.generate_website`
  (`ai/utils.py`): parsing the raw LLM reply with `json.loads`,
  extracting the `files` mapping and filling in the fixed default files;
* `GitHubDeployer.deploy_to_github_pages` (`ai/deploy.py`): repository-name
  sanitization, the create-or-adopt repository protocol, per-file uploads,
  the best-effort pages step and the returned result dictionary.

JSON values are modelled by an inductive type and `json.loads` by an
executable recursive-descent parser following the Python `json` module's
grammar (strict mode, default options).  Python dictionaries are modelled
as insertion-ordered association lists with unique keys.
-/

/-- JSON values as produced by `json.loads`.  Numbers keep their source
lexeme: no claim depends on numeric semantics, only on parse success. -/
inductive Json where
  | null
  | bool (b : Bool)
  | num (lexeme : String)
  | str (s : String)
  | arr (elems : List Json)
  | obj (members : List (String × Json))

/-- JSON whitespace characters skipped by the Python scanner. -/
def jsonWsChar (c : Char) : Bool :=
  c = ' ' || c = '\t' || c = '\n' || c = '\r'

/-- Skip JSON whitespace. -/
def skipWs (cs : List Char) : List Char := cs.dropWhile jsonWsChar

/-- Value of a hexadecimal digit, if any. -/
def hexDigitVal (c : Char) : Option Nat :=
  if '0' ≤ c ∧ c ≤ '9' then some (c.toNat - 48)
  else if 'a' ≤ c ∧ c ≤ 'f' then some (c.toNat - 87)
  else if 'A' ≤ c ∧ c ≤ 'F' then some (c.toNat - 55)
  else none

/-- Single-character string escapes accepted by `json.loads`. -/
def escChar (c : Char) : Option Char :=
  if c = '"' then some '"'
  else if c = '\\' then some '\\'
  else if c = '/' then some '/'
  else if c = 'b' then some '\x08'
  else if c = 'f' then some '\x0c'
  else if c = 'n' then some '\n'
  else if c = 'r' then some '\r'
  else if c = 't' then some '\t'
  else none

/-- Four hexadecimal digits at the front of the input, as a number. -/
def readHex4 : List Char → Option (Nat × List Char)
  | h1 :: h2 :: h3 :: h4 :: rest =>
    match hexDigitVal h1, hexDigitVal h2, hexDigitVal h3, hexDigitVal h4 with
    | some a, some b, some c, some d => some (a * 4096 + b * 256 + c * 16 + d, rest)
    | _, _, _, _ => none
  | _ => none

/-- A `\uXXXX` escape carrying a low surrogate, at the front of the
input. -/
def readLowSurrogate (cs : List Char) : Option (Nat × List Char) :=
  match cs with
  | b1 :: b2 :: rest =>
    if b1 = '\\' ∧ b2 = 'u' then
      match readHex4 rest with
      | some (m, rest2) => if 56320 ≤ m ∧ m ≤ 57343 then some (m, rest2) else none
      | none => none
    else none
  | _ => none

/-- Parse the body of a JSON string literal (the opening quote already
consumed), returning the decoded characters and the rest of the input;
`fuel` bounds the recursion and call sites pass the input length.
Control characters are rejected (Python strict mode); `\uXXXX` escapes are
decoded, joining surrogate pairs.  Lone surrogates, which CPython would
keep, are not representable in `Char` and are rejected here; no claim
involves them. -/
def parseJString : Nat → List Char → Option (List Char × List Char)
  | 0, _ => none
  | _, [] => none
  | Nat.succ f, c :: rest =>
    if c = '"' then some ([], rest)
    else if c = '\\' then
      match rest with
      | [] => none
      | e :: rest2 =>
        if e = 'u' then
          match readHex4 rest2 with
          | none => none
          | some (n, rest3) =>
            if 55296 ≤ n ∧ n ≤ 56319 then
              match readLowSurrogate rest3 with
              | some (m, rest5) =>
                (parseJString f rest5).map
                  (fun p => (Char.ofNat (65536 + (n - 55296) * 1024 + (m - 56320)) :: p.1, p.2))
              | none => none
            else if 56320 ≤ n ∧ n ≤ 57343 then none
            else (parseJString f rest3).map (fun p => (Char.ofNat n :: p.1, p.2))
        else
          match escChar e with
          | some ec => (parseJString f rest2).map (fun p => (ec :: p.1, p.2))
          | none => none
    else if c.toNat < 32 then none
    else (parseJString f rest).map (fun p => (c :: p.1, p.2))

/-- Longest digit run at the front of the input. -/
def digitSpan (cs : List Char) : List Char × List Char := cs.span Char.isDigit

/-- Integer part of the JSON number grammar: `0` or a nonzero digit
followed by digits. -/
def parseIntPart : List Char → Option (List Char × List Char)
  | [] => none
  | c :: rest =>
    if c = '0' then some (['0'], rest)
    else if c.isDigit then
      let p := digitSpan rest
      some (c :: p.1, p.2)
    else none

/-- Optional fraction part `.digits`; consumes nothing unless complete. -/
def parseFracPart (cs : List Char) : List Char × List Char :=
  match cs with
  | '.' :: rest =>
    match digitSpan rest with
    | ([], _) => ([], cs)
    | (ds, r) => ('.' :: ds, r)
  | _ => ([], cs)

/-- Optional exponent part `[eE][+-]?digits`; consumes nothing unless
complete. -/
def parseExpPart (cs : List Char) : List Char × List Char :=
  match cs with
  | e :: rest =>
    if e = 'e' ∨ e = 'E' then
      match rest with
      | s :: rest2 =>
        if s = '+' ∨ s = '-' then
          match digitSpan rest2 with
          | ([], _) => ([], cs)
          | (ds, r) => (e :: s :: ds, r)
        else
          match digitSpan rest with
          | ([], _) => ([], cs)
          | (ds, r) => (e :: ds, r)
      | [] => ([], cs)
    else ([], cs)
  | [] => ([], cs)

/-- Parse a JSON number, keeping its lexeme. -/
def parseJNumber (cs : List Char) : Option (Json × List Char) :=
  let p0 : List Char × List Char :=
    match cs with
    | '-' :: r => (['-'], r)
    | _ => ([], cs)
  match parseIntPart p0.2 with
  | none => none
  | some (ip, r1) =>
    let pf := parseFracPart r1
    let pe := parseExpPart pf.2
    some (.num (String.mk (p0.1 ++ ip ++ pf.1 ++ pe.1)), pe.2)

/-- Python dictionary assignment `d[k] = v`: update the value at an
existing key in place, otherwise append the pair. -/
def dictSet : List (String × Json) → String → Json → List (String × Json)
  | [], k, v => [(k, v)]
  | (k0, v0) :: t, k, v =>
    if k0 = k then (k0, v) :: t else (k0, v0) :: dictSet t k v

mutual

/-- Parse one JSON value (no leading whitespace expected); `fuel` bounds
the nesting recursion. -/
def parseVal : Nat → List Char → Option (Json × List Char)
  | 0, _ => none
  | Nat.succ f, cs =>
    match cs with
    | [] => none
    | '"' :: rest =>
      (parseJString (rest.length + 1) rest).map (fun p => (Json.str (String.mk p.1), p.2))
    | '\x7b' :: rest =>
      match skipWs rest with
      | '\x7d' :: r2 => some (Json.obj [], r2)
      | cs2 => (parseMembers f [] cs2).map (fun p => (Json.obj p.1, p.2))
    | '[' :: rest =>
      match skipWs rest with
      | ']' :: r2 => some (Json.arr [], r2)
      | cs2 => (parseElems f [] cs2).map (fun p => (Json.arr p.1, p.2))
    | 't' :: 'r' :: 'u' :: 'e' :: rest => some (Json.bool true, rest)
    | 'f' :: 'a' :: 'l' :: 's' :: 'e' :: rest => some (Json.bool false, rest)
    | 'n' :: 'u' :: 'l' :: 'l' :: rest => some (Json.null, rest)
    | 'N' :: 'a' :: 'N' :: rest => some (Json.num "NaN", rest)
    | 'I' :: 'n' :: 'f' :: 'i' :: 'n' :: 'i' :: 't' :: 'y' :: rest =>
      some (Json.num "Infinity", rest)
    | '-' :: 'I' :: 'n' :: 'f' :: 'i' :: 'n' :: 'i' :: 't' :: 'y' :: rest =>
      some (Json.num "-Infinity", rest)
    | _ => parseJNumber cs

/-- Parse the members of a JSON object after `{` (at least one member),
building the dictionary with `dictSet` as CPython does. -/
def parseMembers : Nat → List (String × Json) → List Char →
    Option (List (String × Json) × List Char)
  | 0, _, _ => none
  | Nat.succ f, acc, cs =>
    match cs with
    | '"' :: rest =>
      match parseJString (rest.length + 1) rest with
      | none => none
      | some (k, r1) =>
        match skipWs r1 with
        | ':' :: r2 =>
          match parseVal f (skipWs r2) with
          | none => none
          | some (v, r3) =>
            match skipWs r3 with
            | ',' :: r4 => parseMembers f (dictSet acc (String.mk k) v) (skipWs r4)
            | '\x7d' :: r4 => some (dictSet acc (String.mk k) v, r4)
            | _ => none
        | _ => none
    | _ => none

/-- Parse the elements of a JSON array after `[` (at least one element). -/
def parseElems : Nat → List Json → List Char → Option (List Json × List Char)
  | 0, _, _ => none
  | Nat.succ f, acc, cs =>
    match parseVal f cs with
    | none => none
    | some (v, r1) =>
      match skipWs r1 with
      | ',' :: r2 => parseElems f (acc ++ [v]) (skipWs r2)
      | ']' :: r2 => some (acc ++ [v], r2)
      | _ => none

end

/-- Model of Python's `json.loads`: skip surrounding whitespace, parse one
value, and reject trailing data. -/
def json_loads (s : String) : Option Json :=
  match parseVal (s.data.length + 1) (skipWs s.data) with
  | some (v, rest) => if skipWs rest = [] then some v else none
  | none => none

/-- Lowercase hexadecimal digit. -/
def hexDigitChar (n : Nat) : Char :=
  if n < 10 then Char.ofNat (48 + n) else Char.ofNat (87 + n)

/-- Four lowercase hexadecimal digits, as in Python's `'\\u%04x'`. -/
def hex4 (n : Nat) : List Char :=
  [hexDigitChar (n / 4096 % 16), hexDigitChar (n / 256 % 16),
   hexDigitChar (n / 16 % 16), hexDigitChar (n % 16)]

/-- Escape one character as `json.dumps` does with its default
`ensure_ascii=True`: the seven short escapes, `\uXXXX` for other
characters outside `0x20`..`0x7e` (surrogate pairs beyond the BMP), and
the character itself otherwise. -/
def escapeCharAscii (c : Char) : List Char :=
  if c = '\\' then ['\\', '\\']
  else if c = '"' then ['\\', '"']
  else if c = '\x08' then ['\\', 'b']
  else if c = '\x0c' then ['\\', 'f']
  else if c = '\n' then ['\\', 'n']
  else if c = '\r' then ['\\', 'r']
  else if c = '\t' then ['\\', 't']
  else if c.toNat < 32 ∨ c.toNat > 126 then
    if c.toNat < 65536 then '\\' :: 'u' :: hex4 c.toNat
    else
      let v := c.toNat - 65536
      ('\\' :: 'u' :: hex4 (55296 + v / 1024)) ++ ('\\' :: 'u' :: hex4 (56320 + v % 1024))
  else [c]

/-- Serialize a string as a JSON string literal, `json.dumps` style. -/
def dumpJString (s : String) : List Char :=
  '"' :: (s.data.map escapeCharAscii).flatten ++ ['"']

mutual

/-- Serialize a JSON value as `json.dumps` does with default options
(item separator `, `, key separator `: `).  Numbers reproduce their
stored lexeme. -/
def dumpVal : Json → List Char
  | .null => 'n' :: 'u' :: 'l' :: 'l' :: []
  | .bool true => 't' :: 'r' :: 'u' :: 'e' :: []
  | .bool false => 'f' :: 'a' :: 'l' :: 's' :: 'e' :: []
  | .num lx => lx.data
  | .str s => dumpJString s
  | .arr xs => '[' :: dumpElems xs ++ [']']
  | .obj kvs => '\x7b' :: dumpMembers kvs ++ ['\x7d']

/-- Serialize array elements, comma-space separated. -/
def dumpElems : List Json → List Char
  | [] => []
  | [x] => dumpVal x
  | x :: y :: t => dumpVal x ++ ',' :: ' ' :: dumpElems (y :: t)

/-- Serialize object members, comma-space separated. -/
def dumpMembers : List (String × Json) → List Char
  | [] => []
  | [(k, v)] => dumpJString k ++ ':' :: ' ' :: dumpVal v
  | (k, v) :: m :: t =>
    (dumpJString k ++ ':' :: ' ' :: dumpVal v) ++ ',' :: ' ' :: dumpMembers (m :: t)

end

/-- Model of `json.dumps` restricted to the values this repository
serializes. -/
def dumps (v : Json) : String := String.mk (dumpVal v)

/-- Python `k in d` for a dictionary: key membership. -/
def containsKey (kvs : List (String × Json)) (k : String) : Bool :=
  kvs.any (fun e => e.1 == k)

/-- Substring test on character lists (Python `needle in hay` for
strings). -/
def listInfixChars (needle : List Char) : List Char → Bool
  | [] => needle.isEmpty
  | c :: t => needle.isPrefixOf (c :: t) || listInfixChars needle t

/-- Python `needle in hay` for strings. -/
def strContains (hay needle : String) : Bool := listInfixChars needle.data hay.data

/-- Python `k in v` for an arbitrary value: key membership on a dict,
substring on a string, `==`-membership on a list, and a `TypeError`
(`none`) on other types. -/
def pyIn (k : String) (v : Json) : Option Bool :=
  match v with
  | .obj kvs => some (containsKey kvs k)
  | .str s => some (strContains s k)
  | .arr xs => some (xs.any (fun x => match x with | .str s => s == k | _ => false))
  | _ => none

/-- Default `index.html`, from `WebsiteGenerator._default_index`: the
fallback page embedding the original prompt. -/
def defaultIndexHtml (prompt : String) : String :=
  "<!doctype html>\n<html lang=\"en\">\n<head>\n  <meta charset=\"utf-8\" />\n  <meta name=\"viewport\" content=\"width=device-width,initial-scale=1\" />\n  <title>AI Generated Site (Fallback)</title>\n  <link rel=\"stylesheet\" href=\"styles.css\" />\n</head>\n<body>\n  <header><h1>AI Generated Site (Fallback)</h1><p>" ++ prompt ++ "</p></header>\n  <main><section class=\"hero\">\n    <h2>Welcome</h2>\n    <p>This is a fallback site generated when the AI model could not be reached.</p>\n    <button id=\"cta\">Call to action</button>\n  </section></main>\n  <script src=\"script.js\"></script>\n</body>\n</html>\n"

/-- Default `styles.css`, from `WebsiteGenerator._default_css`. -/
def defaultStylesCss : String :=
  "/* styles.css - fallback */\n:root \x7b --bg: #fff; --text: #111; --accent: #007bff; \x7d\n[data-theme=\x27dark\x27] \x7b --bg: #0b0b0f; --text:#e6edf3; --accent:#4da3ff; \x7d\nbody \x7b font-family: -apple-system, BlinkMacSystemFont, \"Segoe UI\", Roboto, Arial; background:var(--bg); color:var(--text); margin:0; padding:0; \x7d\nheader \x7b padding:2rem; text-align:center; background:linear-gradient(90deg, rgba(0,123,255,0.08), transparent); \x7d\n.hero \x7b padding:3rem; text-align:center; \x7d\nbutton \x7b background:var(--accent); color:white; border:none; padding:0.75rem 1.2rem; border-radius:6px; cursor:pointer; \x7d\n@media (max-width:600px) \x7b .hero \x7b padding:1.5rem; \x7d \x7d\n"

/-- Default `script.js`, from `WebsiteGenerator._default_js`. -/
def defaultScriptJs : String :=
  "// script.js - fallback\ndocument.addEventListener(\x27DOMContentLoaded\x27, function()\x7b\n  const cta = document.getElementById(\x27cta\x27);\n  if (cta) \x7b cta.addEventListener(\x27click\x27, () => alert(\x27Thanks for trying the fallback!\x27)); \x7d\n\x7d);\n"

/-- Default `backend.py`, from `WebsiteGenerator._default_backend`. -/
def defaultBackendPy (backendType : String) : String :=
  if backendType = "FastAPI" then
    "# backend.py - FastAPI fallback\nfrom fastapi import FastAPI\napp = FastAPI()\n@app.get(\x27/\x27)\nasync def root(): return \x7b\"message\": \"Hello from FastAPI\"\x7d\n"
  else
    "# backend.py - Flask fallback\nfrom flask import Flask\napp = Flask(__name__)\n@app.route(\x27/\x27)\ndef root(): return \"Hello from Flask\"\nif __name__ == \x27__main__\x27: app.run(debug=True, port=8000)\n"

/-- Failure modes of the coercion step: the `RuntimeError` raised when
`json.loads` fails (carrying the raw model output), or an uncaught Python
`TypeError`/`AttributeError` on a parsed value of an unexpected shape. -/
inductive CoerceError where
  | malformedResponse (raw : String)
  | pyTypeError
deriving DecidableEq

/-- One default-filling statement of `generate_website`:
`if k not in files: files[k] = d`, with Python's `in`/item-assignment
semantics (`TypeError` on non-dict assignment targets). -/
def ensureKey (k : String) (d : Json) (files : Json) : Except CoerceError Json :=
  match pyIn k files with
  | none => .error .pyTypeError
  | some true => .ok files
  | some false =>
    match files with
    | .obj kvs => .ok (.obj (dictSet kvs k d))
    | _ => .error .pyTypeError

/-- The default-filling block of `generate_website` (utils.py 195-202):
ensure `index.html`, `styles.css`, `script.js` and, when a backend was
requested, `backend.py`. -/
def fillRequired (prompt includeBackend : String) (files : Json) : Except CoerceError Json :=
  match ensureKey "index.html" (.str (defaultIndexHtml prompt)) files with
  | .error e => .error e
  | .ok f1 =>
    match ensureKey "styles.css" (.str defaultStylesCss) f1 with
    | .error e => .error e
    | .ok f2 =>
      match ensureKey "script.js" (.str defaultScriptJs) f2 with
      | .error e => .error e
      | .ok f3 =>
        if includeBackend ≠ "None" then
          ensureKey "backend.py" (.str (defaultBackendPy includeBackend)) f3
        else .ok f3

/-- Post-parse processing of `generate_website`:
`files = parsed.get("files", {})` followed by the default fills.
A non-dict `parsed` has no `.get` (`AttributeError`). -/
def postProcess (prompt includeBackend : String) (parsed : Json) : Except CoerceError Json :=
  match parsed with
  | .obj kvs => fillRequired prompt includeBackend ((kvs.lookup "files").getD (.obj []))
  | _ => .error .pyTypeError

/-- The response coercion `coerce` of the specification: the JSON-handling
portion of `WebsiteGenerator.generate_website` (utils.py 187-204).
`json.loads` on the raw model reply; on `JSONDecodeError` a
`RuntimeError` carrying the raw text; otherwise extract the `files`
mapping and fill the required defaults.  The enclosing function finally
returns this mapping under a `files` key together with
`parsed.get("metadata", {})`; the FileSet the claims speak about is the
value returned here. -/
def coerce (prompt includeBackend raw : String) : Except CoerceError Json :=
  match json_loads raw with
  | none => .error (.malformedResponse raw)
  | some parsed => postProcess prompt includeBackend parsed

/-- Lookup of one file in a coercion result, `none` when coercion failed
or produced a non-dict file mapping. -/
def lookupFile (r : Except CoerceError Json) (k : String) : Option Json :=
  match r with
  | .ok (.obj kvs) => kvs.lookup k
  | _ => none

/-- One `if k not in files: files[k] = v` statement on a dictionary. -/
def fillStep (kvs : List (String × Json)) (k : String) (v : Json) : List (String × Json) :=
  if containsKey kvs k then kvs else dictSet kvs k v

/-- The pure dictionary form of the default-filling block, used to state
what `coerce` computes on an object-shaped `files` mapping. -/
def fillDefaults3 (prompt : String) (kvs : List (String × Json)) : List (String × Json) :=
  fillStep
    (fillStep (fillStep kvs "index.html" (.str (defaultIndexHtml prompt)))
      "styles.css" (.str defaultStylesCss))
    "script.js" (.str defaultScriptJs)

/-- Characters stripped by Python's `str.strip()` (the ASCII whitespace
subset; no claim involves the remaining Unicode space code points). -/
def pySpaceChar (c : Char) : Bool :=
  c = ' ' || c = '\t' || c = '\n' || c = '\r' || c = '\x0b' || c = '\x0c'

/-- Python `s.strip()`. -/
def pyStrip (s : String) : String :=
  String.mk (((s.data.dropWhile pySpaceChar).reverse.dropWhile pySpaceChar).reverse)

/-- Python `s.rstrip("/")`. -/
def rstripSlash (cs : List Char) : List Char :=
  (cs.reverse.dropWhile (fun c => c = '/')).reverse

/-- Python `s.split("/")`: split at every slash, keeping empty segments. -/
def splitSlash : List Char → List (List Char)
  | [] => [[]]
  | c :: t =>
    if c = '/' then [] :: splitSlash t
    else
      match splitSlash t with
      | [] => [[c]]
      | h :: r => (c :: h) :: r

/-- Repository-name sanitization of `deploy_to_github_pages`
(deploy.py 17-23): strip whitespace, keep the last `/`-segment of the
trailing-slash-stripped name when a slash is present, and replace spaces
with dashes. -/
def sanitizeRepoName (raw : String) : String :=
  let cs := (pyStrip raw).data
  let cs := if cs.any (fun c => c = '/') then (splitSlash (rstripSlash cs)).getLastD []
            else cs
  String.mk (cs.map (fun c => if c = ' ' then '-' else c))

/-- Responses the GitHub API test double returns to one `deploy` call:
status and `login` field of `GET /user`; status, optional `name` field
and body text of `POST /user/repos`; status of the existence re-check;
per-file statuses and `sha` fields for the content endpoints; and the
outcome of the pages call (status, and whether the request raised).  The
pages fields are never consulted: the call sits in `try/except: pass`. -/
structure GitHubEnv where
  userStatus : Nat
  userLogin : Option String
  userText : String
  createStatus : Nat
  createdName : Option String
  createText : String
  checkStatus : Nat
  fileGetStatus : String → Nat
  fileSha : String → Option String
  filePutStatus : String → Nat
  pagesStatus : Nat
  pagesRaises : Bool

/-- The `RuntimeError`s `deploy_to_github_pages` can raise, one
constructor per `raise` site, carrying the service text interpolated into
the message.  The specification's taxonomy: `AuthError` covers the first
three, `RepoCreateError` the next two, `UploadError` the last. -/
inductive DeployError where
  | tokenMissing
  | invalidToken (body : String)
  | noUsername
  | repoConflict (name body : String)
  | repoCreateFailed (body : String)
  | allUploadsFailed
deriving DecidableEq

/-- The specification's `RepoCreateError` kind. -/
def isRepoCreateError : DeployError → Bool
  | .repoConflict _ _ => true
  | .repoCreateFailed _ => true
  | _ => false

/-- One HTTP request issued by `deploy_to_github_pages`.  `putFile`
carries the file content (sent base64-encoded by the code; the encoding
is content-preserving and not modelled) and the `sha` field included when
the probe found one. -/
inductive Request where
  | getUser
  | createRepo (name : String) (isPrivate : Bool)
  | getRepo (owner name : String)
  | getFile (owner repo path : String)
  | putFile (owner repo path content : String) (sha : Option String)
  | enablePages (owner repo : String)
deriving DecidableEq

/-- The upload loop (deploy.py 66-86): for each file, probe for an
existing `sha` (used only on a 200 response, and only when non-empty,
Python truthiness), issue the put, and count the 200/201 responses. -/
def uploadFiles (env : GitHubEnv) (username repo : String) :
    List (String × String) → List Request × Nat
  | [] => ([], 0)
  | (name, content) :: rest =>
    let sha := if env.fileGetStatus name == 200 then env.fileSha name else none
    let shaArg := match sha with
      | some s => if s = "" then none else some s
      | none => none
    let succ := env.filePutStatus name == 200 || env.filePutStatus name == 201
    let r := uploadFiles env username repo rest
    (Request.getFile username repo name :: Request.putFile username repo name content shaArg :: r.1,
     (if succ then 1 else 0) + r.2)

/-- Tail of `deploy_to_github_pages` after the repository is settled
(deploy.py 66-101): upload all files, raise when none succeeded,
attempt the pages call (its failure swallowed by `try/except: pass`) and
return the result dictionary, which holds only the constructed URL. -/
def finishDeploy (env : GitHubEnv) (username repo : String)
    (files : List (String × String)) :
    List Request × Except DeployError (List (String × String)) :=
  let u := uploadFiles env username repo files
  if u.2 = 0 then (u.1, .error .allUploadsFailed)
  else
    (u.1 ++ [Request.enablePages username repo],
     .ok [("url", "https://" ++ username ++ ".github.io/" ++ repo ++ "/")])

/-- Python truthiness test `not self.token` on the optional token. -/
def tokenFalsy (t : Option String) : Bool := t.getD "" = ""

/-- `GitHubDeployer.deploy_to_github_pages` (deploy.py 13-101), returning
the list of HTTP requests issued (in order) together with the returned
dictionary or the raised error. -/
def deploy_to_github_pages (env : GitHubEnv) (token : Option String)
    (repoNameRaw : String) (files : List (String × String)) (makePublic : Bool) :
    List Request × Except DeployError (List (String × String)) :=
  if tokenFalsy token then ([], .error .tokenMissing)
  else
    let rname := sanitizeRepoName repoNameRaw
    if env.userStatus ≠ 200 then ([Request.getUser], .error (.invalidToken env.userText))
    else
      match env.userLogin with
      | none => ([Request.getUser], .error .noUsername)
      | some username =>
        if username = "" then ([Request.getUser], .error .noUsername)
        else
          let tr := [Request.getUser, Request.createRepo rname (!makePublic)]
          if env.createStatus = 201 then
            let repo := env.createdName.getD rname
            let fin := finishDeploy env username repo files
            (tr ++ fin.1, fin.2)
          else if env.createStatus = 422 then
            let tr2 := tr ++ [Request.getRepo username rname]
            if env.checkStatus = 200 then
              let fin := finishDeploy env username rname files
              (tr2 ++ fin.1, fin.2)
            else (tr2, .error (.repoConflict rname env.createText))
          else (tr, .error (.repoCreateFailed env.createText))

/-- The repository name all post-creation requests use: the
service-confirmed name on a 201 creation, otherwise the sanitized
request name. -/
def resolvedRepoName (env : GitHubEnv) (rname : String) : String :=
  if env.createStatus = 201 then env.createdName.getD rname else rname

/-- Number of files of a FileSet whose upload the environment answers
with 200 or 201. -/
def successCount (env : GitHubEnv) (files : List (String × String)) : Nat :=
  (files.filter (fun f => env.filePutStatus f.1 == 200 || env.filePutStatus f.1 == 201)).length

/-- Number of file-upload requests in a trace that received a 200/201
response: the files actually uploaded successfully during the call. -/
def succUploads (env : GitHubEnv) (tr : List Request) : Nat :=
  (tr.filter (fun r => match r with
    | .putFile _ _ p _ _ => env.filePutStatus p == 200 || env.filePutStatus p == 201
    | _ => false)).length

/-- The path of an upload request, `none` for every other request. -/
def putPath : Request → Option String
  | .putFile _ _ p _ _ => some p
  | _ => none


/-! ### Dictionary lemmas -/

theorem lookup_eq_none_of_not_containsKey {kvs : List (String × Json)} {k : String}
    (h : containsKey kvs k = false) : kvs.lookup k = none := by
  induction kvs with
  | nil => rfl
  | cons e t ih =>
    simp only [containsKey, List.any_cons, Bool.or_eq_false_iff] at h
    have hne : (k == e.1) = false := by
      rw [beq_eq_false_iff_ne] at h ⊢
      exact fun hk => h.1 (hk ▸ rfl)
    simp only [List.lookup, hne]
    exact ih (by simpa [containsKey] using h.2)

theorem containsKey_of_lookup_eq_some {kvs : List (String × Json)} {k : String} {v : Json}
    (h : kvs.lookup k = some v) : containsKey kvs k = true := by
  by_contra hc
  rw [lookup_eq_none_of_not_containsKey (Bool.eq_false_iff.mpr hc)] at h
  exact Option.noConfusion h

theorem dictSet_lookup_self (kvs : List (String × Json)) (k : String) (v : Json) :
    (dictSet kvs k v).lookup k = some v := by
  induction kvs with
  | nil => simp [dictSet, List.lookup]
  | cons e t ih =>
    by_cases h : e.1 = k
    · simp [dictSet, h, List.lookup]
    · have hne : (k == e.1) = false := by
        rw [beq_eq_false_iff_ne]
        exact fun hk => h hk.symm
      simp [dictSet, h, List.lookup, hne, ih]

theorem dictSet_lookup_ne {k' k : String} (hne : k' ≠ k)
    (kvs : List (String × Json)) (v : Json) :
    (dictSet kvs k v).lookup k' = kvs.lookup k' := by
  induction kvs with
  | nil => simp [dictSet, List.lookup, beq_eq_false_iff_ne.mpr hne]
  | cons e t ih =>
    by_cases h : e.1 = k
    · subst h
      simp [dictSet, List.lookup, beq_eq_false_iff_ne.mpr hne]
    · simp [dictSet, h, List.lookup, ih]

theorem dictSet_containsKey_self (kvs : List (String × Json)) (k : String) (v : Json) :
    containsKey (dictSet kvs k v) k = true := by
  induction kvs with
  | nil => simp [dictSet, containsKey]
  | cons e t ih =>
    by_cases h : e.1 = k
    · simp [dictSet, h, containsKey]
    · simp only [dictSet, h, if_false, containsKey, List.any_cons, Bool.or_eq_true]
      exact Or.inr (by simpa [containsKey] using ih)

theorem dictSet_containsKey_ne {k' k : String} (hne : k' ≠ k)
    (kvs : List (String × Json)) (v : Json) :
    containsKey (dictSet kvs k v) k' = containsKey kvs k' := by
  induction kvs with
  | nil => simp [dictSet, containsKey, beq_eq_false_iff_ne.mpr (fun hk => hne hk.symm)]
  | cons e t ih =>
    by_cases h : e.1 = k
    · subst h
      simp [dictSet, containsKey, List.any_cons]
    · simp only [dictSet, h, if_false, containsKey, List.any_cons]
      have := by simpa [containsKey] using ih
      rw [this]

/-! ### Fill-step lemmas -/

theorem fillStep_contains_self (kvs : List (String × Json)) (k : String) (v : Json) :
    containsKey (fillStep kvs k v) k = true := by
  by_cases h : containsKey kvs k = true <;>
    simp [fillStep, h, dictSet_containsKey_self]

theorem fillStep_contains_mono {kvs : List (String × Json)} {k' : String}
    (h : containsKey kvs k' = true) (k : String) (v : Json) :
    containsKey (fillStep kvs k v) k' = true := by
  by_cases hk : containsKey kvs k = true
  · simpa [fillStep, hk] using h
  · unfold fillStep
    rw [if_neg hk]
    by_cases he : k' = k
    · subst he; exact dictSet_containsKey_self kvs k' v
    · rw [dictSet_containsKey_ne he]; exact h

theorem fillStep_lookup_present {kvs : List (String × Json)} {k' : String}
    (h : containsKey kvs k' = true) (k : String) (v : Json) :
    (fillStep kvs k v).lookup k' = kvs.lookup k' := by
  by_cases hk : containsKey kvs k = true
  · simp [fillStep, hk]
  · unfold fillStep
    rw [if_neg hk]
    exact dictSet_lookup_ne (fun he => hk (by rw [he] at h; exact h)) kvs v

theorem fillStep_lookup_absent {kvs : List (String × Json)} {k : String}
    (h : containsKey kvs k = false) (v : Json) :
    (fillStep kvs k v).lookup k = some v := by
  simp only [fillStep, h, if_false, Bool.false_eq_true]
  exact dictSet_lookup_self kvs k v

theorem fillStep_contains_ne {k' k : String} (hne : k' ≠ k)
    (kvs : List (String × Json)) (v : Json) :
    containsKey (fillStep kvs k v) k' = containsKey kvs k' := by
  by_cases hk : containsKey kvs k = true
  · simp [fillStep, hk]
  · simp only [fillStep, hk, if_false]
    exact dictSet_containsKey_ne hne kvs v

theorem fillStep_lookup_ne {k' k : String} (hne : k' ≠ k)
    (kvs : List (String × Json)) (v : Json) :
    (fillStep kvs k v).lookup k' = kvs.lookup k' := by
  by_cases hk : containsKey kvs k = true
  · simp [fillStep, hk]
  · simp only [fillStep, hk, if_false]
    exact dictSet_lookup_ne hne kvs v

theorem fillStep_of_present {kvs : List (String × Json)} {k : String}
    (h : containsKey kvs k = true) (v : Json) : fillStep kvs k v = kvs := by
  simp [fillStep, h]

/-! ### Coercion lemmas -/

theorem ensureKey_error {k : String} {d f : Json} {e : CoerceError}
    (h : ensureKey k d f = .error e) : e = .pyTypeError := by
  unfold ensureKey at h
  split at h
  · exact (Except.error.inj h).symm
  · exact Except.noConfusion h
  · split at h
    · exact Except.noConfusion h
    · exact (Except.error.inj h).symm

theorem fillRequired_error {prompt ib : String} {f : Json} {e : CoerceError}
    (h : fillRequired prompt ib f = .error e) : e = .pyTypeError := by
  unfold fillRequired at h
  split at h
  next he => exact (Except.error.inj h) ▸ ensureKey_error he
  next =>
    split at h
    next he => exact (Except.error.inj h) ▸ ensureKey_error he
    next =>
      split at h
      next he => exact (Except.error.inj h) ▸ ensureKey_error he
      next =>
        split at h
        · exact ensureKey_error h
        · exact Except.noConfusion h

theorem postProcess_ne_malformed (prompt ib : String) (parsed : Json) (r : String) :
    postProcess prompt ib parsed ≠ .error (.malformedResponse r) := by
  intro h
  unfold postProcess at h
  split at h
  · exact CoerceError.noConfusion (fillRequired_error h)
  · exact CoerceError.noConfusion (Except.error.inj h)

theorem ensureKey_obj (k : String) (d : Json) (kvs : List (String × Json)) :
    ensureKey k d (.obj kvs) = .ok (.obj (fillStep kvs k d)) := by
  by_cases h : containsKey kvs k = true <;> simp [ensureKey, pyIn, fillStep, h]

theorem fillRequired_obj (prompt : String) (kvs : List (String × Json)) :
    fillRequired prompt "None" (.obj kvs) = .ok (.obj (fillDefaults3 prompt kvs)) := by
  simp only [fillRequired, ensureKey_obj]
  rw [if_neg (by decide : ¬("None" : String) ≠ "None")]
  rfl

theorem fillDefaults3_containsKey (prompt : String) (kvs : List (String × Json)) :
    containsKey (fillDefaults3 prompt kvs) "index.html" = true ∧
    containsKey (fillDefaults3 prompt kvs) "styles.css" = true ∧
    containsKey (fillDefaults3 prompt kvs) "script.js" = true := by
  unfold fillDefaults3
  exact ⟨fillStep_contains_mono (fillStep_contains_mono (fillStep_contains_self ..) ..) ..,
    fillStep_contains_mono (fillStep_contains_self ..) ..,
    fillStep_contains_self ..⟩

theorem fillDefaults3_of_all_present (prompt : String) {kvs : List (String × Json)}
    (h1 : containsKey kvs "index.html" = true)
    (h2 : containsKey kvs "styles.css" = true)
    (h3 : containsKey kvs "script.js" = true) :
    fillDefaults3 prompt kvs = kvs := by
  unfold fillDefaults3
  rw [fillStep_of_present h1, fillStep_of_present h2, fillStep_of_present h3]

theorem fillDefaults3_lookup_present (prompt : String) {kvs : List (String × Json)}
    {k : String} (h : containsKey kvs k = true) :
    (fillDefaults3 prompt kvs).lookup k = kvs.lookup k := by
  unfold fillDefaults3
  rw [fillStep_lookup_present (fillStep_contains_mono (fillStep_contains_mono h ..) ..),
    fillStep_lookup_present (fillStep_contains_mono h ..),
    fillStep_lookup_present h]

/-! ### Further shape lemmas for coercion results -/

theorem ensureKey_ok_not_obj {k : String} {d f g : Json}
    (h : ensureKey k d f = .ok g) (hf : ∀ kvs, f ≠ .obj kvs) : g = f := by
  unfold ensureKey at h
  cases f with
  | obj kvs => exact absurd rfl (hf kvs)
  | str s =>
    simp only [pyIn] at h
    cases hc : strContains s k <;> rw [hc] at h
    · exact Except.noConfusion h
    · exact (Except.ok.inj h).symm
  | arr xs =>
    simp only [pyIn] at h
    cases hc : xs.any (fun x => match x with | .str s => s == k | _ => false) <;> rw [hc] at h
    · exact Except.noConfusion h
    · exact (Except.ok.inj h).symm
  | null => exact Except.noConfusion h
  | bool b => exact Except.noConfusion h
  | num lx => exact Except.noConfusion h

theorem fillRequired_ok_obj {prompt : String} {f : Json} {fkvs : List (String × Json)}
    (h : fillRequired prompt "None" f = .ok (.obj fkvs)) :
    ∃ kvs0, f = .obj kvs0 ∧ fkvs = fillDefaults3 prompt kvs0 := by
  cases hf : f with
  | obj kvs0 =>
    rw [hf, fillRequired_obj] at h
    exact ⟨kvs0, rfl, (Json.obj.inj (Except.ok.inj h)).symm⟩
  | _ =>
    exfalso
    subst hf
    unfold fillRequired at h
    split at h
    · exact Except.noConfusion h
    next f1 h1 =>
      split at h
      · exact Except.noConfusion h
      next f2 h2 =>
        split at h
        · exact Except.noConfusion h
        next f3 h3 =>
          rw [if_neg (by decide : ¬("None" : String) ≠ "None")] at h
          have e1 := ensureKey_ok_not_obj h1 (by intro kvs hk; cases hk)
          subst e1
          have e2 := ensureKey_ok_not_obj h2 (by intro kvs hk; cases hk)
          subst e2
          have e3 := ensureKey_ok_not_obj h3 (by intro kvs hk; cases hk)
          subst e3
          cases (Except.ok.inj h)

/-! ### Concrete model replies used in the counterexamples -/

/-- A reply with the JSON object embedded between prose. -/
def proseReply : String :=
  "Sure! Here is your website: \x7b\"files\": \x7b\"index.html\": \"X\"\x7d\x7d Enjoy!"

/-- The brace-delimited substring of `proseReply`. -/
def innerJson : String := "\x7b\"files\": \x7b\"index.html\": \"X\"\x7d\x7d"

/-- A well-formed JSON object carrying the three canonical files directly,
without a `files` wrapper. -/
def objNoFiles : String :=
  "\x7b\"index.html\": \"X\", \"styles.css\": \"Y\", \"script.js\": \"Z\"\x7d"

/-- A well-formed reply with a `files` wrapper and one file. -/
def withFilesJson : String := "\x7b\"files\": \x7b\"index.html\": \"A\"\x7d\x7d"

/-- A well-formed reply carrying all three canonical files under `files`. -/
def filesetJson : String :=
  "\x7b\"files\": \x7b\"index.html\": \"A\", \"styles.css\": \"B\", \"script.js\": \"C\"\x7d\x7d"

/-- The FileSet `coerce` recovers from `filesetJson`. -/
def fsABC : List (String × Json) :=
  [("index.html", .str "A"), ("styles.css", .str "B"), ("script.js", .str "C")]

/-! ### Claim C1 -/

/-- C1, counterexample: on a reply whose JSON object sits between prose,
`coerce` does not recover the inner object: it fails with the
malformed-response error carrying the whole raw text, even though the
first-brace-to-last-brace substring is itself valid JSON, so the claimed
third fallback step would have succeeded had it existed. -/
theorem C1_counterexample :
    coerce "p" "None" proseReply = .error (.malformedResponse proseReply) ∧
    json_loads innerJson =
      some (.obj [("files", .obj [("index.html", .str "X")])]) :=
  ⟨rfl, rfl⟩

/-- C1 (amended): `coerce` attempts only the direct `json.loads` parse of
the raw text; there is no fenced-block or brace-substring fallback.  It
fails with `MalformedResponse` carrying the original input text exactly
when the direct parse fails. -/
theorem C1_direct_parse_only (prompt includeBackend raw : String) :
    coerce prompt includeBackend raw = .error (.malformedResponse raw) ↔
      json_loads raw = none := by
  constructor
  · intro h
    cases hj : json_loads raw with
    | none => rfl
    | some parsed =>
      unfold coerce at h
      rw [hj] at h
      exact absurd h (postProcess_ne_malformed prompt includeBackend parsed raw)
  · intro h
    unfold coerce
    rw [h]

/-! ### Claim C2 -/

/-- C2, counterexample: `objNoFiles` parses as a well-formed JSON object
whose members are the three canonical files, but `coerce` does not treat
the object itself as the file mapping: lacking a `files` key the mapping
is taken to be empty, and the recovered `index.html` is the fixed default
page rather than the object's own `"X"`. -/
theorem C2_counterexample :
    json_loads objNoFiles = some (.obj
      [("index.html", .str "X"), ("styles.css", .str "Y"), ("script.js", .str "Z")]) ∧
    lookupFile (coerce "p" "None" objNoFiles) "index.html" =
      some (.str (defaultIndexHtml "p")) ∧
    defaultIndexHtml "p" ≠ "X" :=
  ⟨rfl, rfl, by decide⟩

/-- C2 (amended): for every string `s` parsing as a well-formed JSON
object, `coerce` uses the object's `files` member as the file mapping
when that member is an object, and the empty mapping when the `files` key
is absent (the object itself is never used as the mapping).  The result
is the mapping merged with the fixed defaults: the three canonical keys
are always present, existing entries are never overwritten, and each
absent canonical key is bound to its default content. -/
theorem C2_files_extraction_and_defaults (prompt s : String)
    (kvs : List (String × Json)) (hp : json_loads s = some (.obj kvs)) :
    (kvs.lookup "files" = none →
      coerce prompt "None" s = .ok (.obj (fillDefaults3 prompt []))) ∧
    (∀ fkvs, kvs.lookup "files" = some (.obj fkvs) →
      coerce prompt "None" s = .ok (.obj (fillDefaults3 prompt fkvs)) ∧
      containsKey (fillDefaults3 prompt fkvs) "index.html" = true ∧
      containsKey (fillDefaults3 prompt fkvs) "styles.css" = true ∧
      containsKey (fillDefaults3 prompt fkvs) "script.js" = true ∧
      (∀ k, containsKey fkvs k = true →
        (fillDefaults3 prompt fkvs).lookup k = fkvs.lookup k) ∧
      (containsKey fkvs "index.html" = false →
        (fillDefaults3 prompt fkvs).lookup "index.html" =
          some (.str (defaultIndexHtml prompt))) ∧
      (containsKey fkvs "styles.css" = false →
        (fillDefaults3 prompt fkvs).lookup "styles.css" =
          some (.str defaultStylesCss)) ∧
      (containsKey fkvs "script.js" = false →
        (fillDefaults3 prompt fkvs).lookup "script.js" =
          some (.str defaultScriptJs))) := by
  constructor
  · intro hnone
    unfold coerce
    rw [hp]
    show fillRequired prompt "None" ((List.lookup "files" kvs).getD (Json.obj [])) = _
    rw [hnone]
    exact fillRequired_obj prompt []
  · intro fkvs hfk
    refine ⟨?_, (fillDefaults3_containsKey prompt fkvs).1,
      (fillDefaults3_containsKey prompt fkvs).2.1,
      (fillDefaults3_containsKey prompt fkvs).2.2,
      fun k hk => fillDefaults3_lookup_present prompt hk, ?_, ?_, ?_⟩
    · unfold coerce
      rw [hp]
      show fillRequired prompt "None" ((List.lookup "files" kvs).getD (Json.obj [])) = _
      rw [hfk]
      exact fillRequired_obj prompt fkvs
    · intro habs
      unfold fillDefaults3
      rw [fillStep_lookup_ne (by decide : ("index.html" : String) ≠ "script.js"),
        fillStep_lookup_ne (by decide : ("index.html" : String) ≠ "styles.css")]
      exact fillStep_lookup_absent habs _
    · intro habs
      unfold fillDefaults3
      rw [fillStep_lookup_ne (by decide : ("styles.css" : String) ≠ "script.js")]
      apply fillStep_lookup_absent
      rw [fillStep_contains_ne (by decide : ("styles.css" : String) ≠ "index.html")]
      exact habs
    · intro habs
      unfold fillDefaults3
      apply fillStep_lookup_absent
      rw [fillStep_contains_ne (by decide : ("script.js" : String) ≠ "styles.css"),
        fillStep_contains_ne (by decide : ("script.js" : String) ≠ "index.html")]
      exact habs

/-- C2, witness: on the concrete reply `withFilesJson` the amended claim
yields the provided `index.html` untouched and the default stylesheet for
the absent `styles.css`. -/
theorem C2_witness :
    coerce "p" "None" withFilesJson =
      .ok (.obj (fillDefaults3 "p" [("index.html", .str "A")])) ∧
    (fillDefaults3 "p" [("index.html", .str "A")]).lookup "index.html" =
      some (.str "A") ∧
    (fillDefaults3 "p" [("index.html", .str "A")]).lookup "styles.css" =
      some (.str defaultStylesCss) := by
  have h := (C2_files_extraction_and_defaults "p" withFilesJson
    [("files", .obj [("index.html", .str "A")])] rfl).2
    [("index.html", .str "A")] rfl
  obtain ⟨ha, -, -, -, he, -, hg, -⟩ := h
  exact ⟨ha, by rw [he "index.html" rfl]; rfl, hg rfl⟩

/-! ### Claim C9 -/

/-- C9, counterexample: `coerce` is not idempotent under re-serialization
of its output.  Coercing `filesetJson` yields the FileSet `fsABC`;
serializing that FileSet itself (as the claim's re-serialization does)
produces a JSON object without a `files` key, so coercing the serialized
text replaces every file with the fixed defaults: the recovered
`index.html` is the default page, not the original `"A"`. -/
theorem C9_counterexample :
    coerce "p" "None" filesetJson = .ok (.obj fsABC) ∧
    lookupFile (coerce "p" "None" (dumps (.obj fsABC))) "index.html" =
      some (.str (defaultIndexHtml "p")) ∧
    defaultIndexHtml "p" ≠ "A" :=
  ⟨rfl, rfl, by decide⟩

/-! ### Upload-step lemmas -/

theorem uploadFiles_count (env : GitHubEnv) (u r : String)
    (files : List (String × String)) :
    (uploadFiles env u r files).2 = successCount env files := by
  induction files with
  | nil => rfl
  | cons f t ih =>
    obtain ⟨name, content⟩ := f
    simp only [uploadFiles, successCount, List.filter_cons] at ih ⊢
    cases hs : env.filePutStatus name == 200 || env.filePutStatus name == 201 <;>
      simp [hs, ih, successCount, Nat.add_comm]

theorem uploadFiles_putPaths (env : GitHubEnv) (u r : String)
    (files : List (String × String)) :
    (uploadFiles env u r files).1.filterMap putPath = files.map Prod.fst := by
  induction files with
  | nil => rfl
  | cons f t ih =>
    obtain ⟨name, content⟩ := f
    simp only [uploadFiles, List.filterMap_cons, putPath, List.map_cons]
    rw [ih]

theorem uploadFiles_succUploads (env : GitHubEnv) (u r : String)
    (files : List (String × String)) :
    succUploads env (uploadFiles env u r files).1 = (uploadFiles env u r files).2 := by
  induction files with
  | nil => rfl
  | cons f t ih =>
    obtain ⟨name, content⟩ := f
    by_cases hs : (env.filePutStatus name == 200 || env.filePutStatus name == 201) = true
    · simp [uploadFiles, succUploads, List.filter_cons, hs, ← ih, Nat.add_comm]
    · rw [Bool.not_eq_true] at hs
      simp [uploadFiles, succUploads, List.filter_cons, hs, ← ih, Nat.add_comm]

theorem uploadFiles_no_pages (env : GitHubEnv) (u r : String)
    (files : List (String × String)) (o rp : String) :
    Request.enablePages o rp ∉ (uploadFiles env u r files).1 := by
  induction files with
  | nil => simp [uploadFiles]
  | cons f t ih =>
    obtain ⟨name, content⟩ := f
    simp only [uploadFiles, List.mem_cons, not_or]
    exact ⟨fun h => Request.noConfusion h, fun h => Request.noConfusion h, ih⟩

theorem succUploads_append (env : GitHubEnv) (a b : List Request) :
    succUploads env (a ++ b) = succUploads env a + succUploads env b := by
  simp [succUploads, List.filter_append]

theorem finishDeploy_error (env : GitHubEnv) (u r : String)
    (files : List (String × String)) (e : DeployError)
    (h : (finishDeploy env u r files).2 = .error e) : e = .allUploadsFailed := by
  simp only [finishDeploy] at h
  split at h
  · exact (Except.error.inj h).symm
  · exact Except.noConfusion h

/-! ### Deploy path lemmas -/

theorem deploy_reach_201 (env : GitHubEnv) (t : Option String) (raw : String)
    (files : List (String × String)) (pub : Bool) (u : String)
    (ht : tokenFalsy t = false) (hu : env.userStatus = 200)
    (hl : env.userLogin = some u) (hne : u ≠ "") (hc : env.createStatus = 201) :
    deploy_to_github_pages env t raw files pub =
      (Request.getUser :: Request.createRepo (sanitizeRepoName raw) (!pub) ::
        (finishDeploy env u (env.createdName.getD (sanitizeRepoName raw)) files).1,
       (finishDeploy env u (env.createdName.getD (sanitizeRepoName raw)) files).2) := by
  unfold deploy_to_github_pages
  rw [ht, hl]
  simp only [Bool.false_eq_true, if_false, hu, hc, hne]
  simp

theorem deploy_reach_422 (env : GitHubEnv) (t : Option String) (raw : String)
    (files : List (String × String)) (pub : Bool) (u : String)
    (ht : tokenFalsy t = false) (hu : env.userStatus = 200)
    (hl : env.userLogin = some u) (hne : u ≠ "") (hc : env.createStatus = 422)
    (hk : env.checkStatus = 200) :
    deploy_to_github_pages env t raw files pub =
      (Request.getUser :: Request.createRepo (sanitizeRepoName raw) (!pub) ::
        Request.getRepo u (sanitizeRepoName raw) ::
        (finishDeploy env u (sanitizeRepoName raw) files).1,
       (finishDeploy env u (sanitizeRepoName raw) files).2) := by
  unfold deploy_to_github_pages
  rw [ht, hl]
  simp only [Bool.false_eq_true, if_false, hu, hc, hk, hne]
  simp

theorem deploy_conflict_fail (env : GitHubEnv) (t : Option String) (raw : String)
    (files : List (String × String)) (pub : Bool) (u : String)
    (ht : tokenFalsy t = false) (hu : env.userStatus = 200)
    (hl : env.userLogin = some u) (hne : u ≠ "") (hc : env.createStatus = 422)
    (hk : env.checkStatus ≠ 200) :
    deploy_to_github_pages env t raw files pub =
      ([Request.getUser, Request.createRepo (sanitizeRepoName raw) (!pub),
        Request.getRepo u (sanitizeRepoName raw)],
       .error (.repoConflict (sanitizeRepoName raw) env.createText)) := by
  unfold deploy_to_github_pages
  rw [ht, hl]
  simp only [Bool.false_eq_true, if_false, hu, hc, hk, hne]
  simp

theorem deploy_create_fail (env : GitHubEnv) (t : Option String) (raw : String)
    (files : List (String × String)) (pub : Bool) (u : String)
    (ht : tokenFalsy t = false) (hu : env.userStatus = 200)
    (hl : env.userLogin = some u) (hne : u ≠ "")
    (hc1 : env.createStatus ≠ 201) (hc2 : env.createStatus ≠ 422) :
    deploy_to_github_pages env t raw files pub =
      ([Request.getUser, Request.createRepo (sanitizeRepoName raw) (!pub)],
       .error (.repoCreateFailed env.createText)) := by
  unfold deploy_to_github_pages
  rw [ht, hl]
  simp only [Bool.false_eq_true, if_false, hu, hc1, hc2, hne]
  simp

theorem finishDeploy_result (env : GitHubEnv) (u r : String)
    (files : List (String × String)) :
    (successCount env files = 0 →
      finishDeploy env u r files = ((uploadFiles env u r files).1, .error .allUploadsFailed)) ∧
    (1 ≤ successCount env files →
      finishDeploy env u r files =
        ((uploadFiles env u r files).1 ++ [Request.enablePages u r],
         .ok [("url", "https://" ++ u ++ ".github.io/" ++ r ++ "/")])) := by
  constructor
  · intro h
    simp only [finishDeploy]
    rw [uploadFiles_count, h]
    simp
  · intro h
    simp only [finishDeploy]
    rw [uploadFiles_count]
    rw [if_neg (by omega)]

/-! ### Concrete API test doubles -/

/-- A fully cooperative API double: token accepted, user `u`, creation
succeeds without renaming, every upload succeeds. -/
def envBase : GitHubEnv where
  userStatus := 200
  userLogin := some "u"
  userText := ""
  createStatus := 201
  createdName := none
  createText := "boom"
  checkStatus := 404
  fileGetStatus := fun _ => 404
  fileSha := fun _ => none
  filePutStatus := fun _ => 201
  pagesStatus := 201
  pagesRaises := false

/-- Like `envBase`, but the upload of `c.txt` fails with a 500. -/
def envTwoOfThree : GitHubEnv :=
  { envBase with filePutStatus := fun p => if p == "c.txt" then 500 else 201 }

/-- Like `envBase`, but repository creation conflicts and the re-check
finds the repository. -/
def envConflictFound : GitHubEnv :=
  { envBase with createStatus := 422, checkStatus := 200 }

/-- The three-file FileSet used by the concrete deployments. -/
def threeFiles : List (String × String) := [("a.txt", "1"), ("b.txt", "2"), ("c.txt", "3")]

/-! ### Claim C3 -/

/-- C3, counterexample: with 2 of 3 uploads succeeding the call succeeds,
but the returned dictionary holds only the `url` key — no upload count is
returned, contradicting the claimed `DeployResult` contents. -/
theorem C3_counterexample :
    successCount envTwoOfThree threeFiles = 2 ∧
    (deploy_to_github_pages envTwoOfThree (some "tok") "site" threeFiles true).2 =
      .ok [("url", "https://u.github.io/site/")] ∧
    List.lookup "count" [(("url" : String), ("https://u.github.io/site/" : String))] =
      none :=
  ⟨rfl, rfl, rfl⟩

/-- C3 (amended): every successful `deploy` call returns a dictionary
holding exactly one entry, the live hosting URL derived from the resolved
user and the canonical repository name.  The successful-upload count is
tracked internally (a zero count aborts the call) but is not part of the
returned result. -/
theorem C3_url_only (env : GitHubEnv) (t : Option String) (raw : String)
    (files : List (String × String)) (pub : Bool) (u : String)
    (ht : tokenFalsy t = false) (hu : env.userStatus = 200)
    (hl : env.userLogin = some u) (hne : u ≠ "")
    (hcOk : env.createStatus = 201 ∨ (env.createStatus = 422 ∧ env.checkStatus = 200))
    (hs : 1 ≤ successCount env files) :
    (deploy_to_github_pages env t raw files pub).2 =
      .ok [("url", "https://" ++ u ++ ".github.io/" ++
        resolvedRepoName env (sanitizeRepoName raw) ++ "/")] := by
  rcases hcOk with hc | ⟨hc, hk⟩
  · rw [deploy_reach_201 env t raw files pub u ht hu hl hne hc,
      (finishDeploy_result env u (env.createdName.getD (sanitizeRepoName raw)) files).2 hs]
    simp [resolvedRepoName, hc]
  · rw [deploy_reach_422 env t raw files pub u ht hu hl hne hc hk,
      (finishDeploy_result env u (sanitizeRepoName raw) files).2 hs]
    simp [resolvedRepoName, hc]

/-- C3, witness: the amended claim instantiated on the 2-of-3 double. -/
theorem C3_witness :
    (deploy_to_github_pages envTwoOfThree (some "tok") "site" threeFiles true).2 =
      .ok [("url", "https://" ++ "u" ++ ".github.io/" ++
        resolvedRepoName envTwoOfThree (sanitizeRepoName "site") ++ "/")] :=
  C3_url_only envTwoOfThree (some "tok") "site" threeFiles true "u"
    rfl rfl rfl (by decide) (Or.inl rfl) (by decide)

/-! ### Claim C6 -/

/-- C6: with an absent or empty token, `deploy` fails with the
missing-token error before issuing any request: the request trace is
empty. -/
theorem C6_no_token_no_requests (env : GitHubEnv) (raw : String)
    (files : List (String × String)) (pub : Bool) (t : Option String)
    (h : t = none ∨ t = some "") :
    deploy_to_github_pages env t raw files pub = ([], .error .tokenMissing) := by
  have ht : tokenFalsy t = true := by rcases h with h | h <;> subst h <;> rfl
  unfold deploy_to_github_pages
  rw [ht]
  simp

/-- C6, witness: the empty-token instantiation on the cooperative
double. -/
theorem C6_witness :
    deploy_to_github_pages envBase (some "") "site" threeFiles true =
      ([], .error .tokenMissing) :=
  C6_no_token_no_requests envBase "site" threeFiles true (some "") (Or.inr rfl)

/-! ### Claim C7 -/

/-- C7: sanitization of the pasted URL `"https://host/group/My Site "`
produces `"My-Site"`, and a full deployment of one file uses that
sanitized name in the creation request, both content requests, and the
pages request. -/
theorem C7_sanitization :
    sanitizeRepoName "https://host/group/My Site " = "My-Site" ∧
    deploy_to_github_pages envBase (some "tok") "https://host/group/My Site "
        [("index.html", "hi")] true =
      ([Request.getUser, Request.createRepo "My-Site" false,
        Request.getFile "u" "My-Site" "index.html",
        Request.putFile "u" "My-Site" "index.html" "hi" none,
        Request.enablePages "u" "My-Site"],
       .ok [("url", "https://u.github.io/My-Site/")]) :=
  ⟨rfl, rfl⟩

/-! ### Claim C4 -/

/-- C4: after a conflicting creation response (422), a successful
existence re-check routes the call into the upload step without raising a
repository-creation error (any remaining failure is the upload error); a
failed re-check raises the conflict error carrying the creation
response's body text; and any creation status other than 201 and 422
raises the generic creation error carrying that body text. -/
theorem C4_conflict_handling (env : GitHubEnv) (t : Option String) (raw : String)
    (files : List (String × String)) (pub : Bool) (u : String)
    (ht : tokenFalsy t = false) (hu : env.userStatus = 200)
    (hl : env.userLogin = some u) (hne : u ≠ "") :
    (env.createStatus = 422 → env.checkStatus = 200 →
      deploy_to_github_pages env t raw files pub =
        (Request.getUser :: Request.createRepo (sanitizeRepoName raw) (!pub) ::
          Request.getRepo u (sanitizeRepoName raw) ::
          (finishDeploy env u (sanitizeRepoName raw) files).1,
         (finishDeploy env u (sanitizeRepoName raw) files).2) ∧
      (∀ e, (deploy_to_github_pages env t raw files pub).2 = .error e →
        isRepoCreateError e = false)) ∧
    (env.createStatus = 422 → env.checkStatus ≠ 200 →
      (deploy_to_github_pages env t raw files pub).2 =
        .error (.repoConflict (sanitizeRepoName raw) env.createText)) ∧
    (env.createStatus ≠ 201 → env.createStatus ≠ 422 →
      (deploy_to_github_pages env t raw files pub).2 =
        .error (.repoCreateFailed env.createText)) := by
  refine ⟨fun hc hk => ⟨deploy_reach_422 env t raw files pub u ht hu hl hne hc hk, ?_⟩,
    fun hc hk => ?_, fun hc1 hc2 => ?_⟩
  · intro e he
    rw [deploy_reach_422 env t raw files pub u ht hu hl hne hc hk] at he
    rw [finishDeploy_error env u (sanitizeRepoName raw) files e he]
    rfl
  · rw [deploy_conflict_fail env t raw files pub u ht hu hl hne hc hk]
  · rw [deploy_create_fail env t raw files pub u ht hu hl hne hc1 hc2]

/-- C4, witness: the conflict-then-found instantiation on the concrete
double: the call proceeds to the upload step and ends successfully. -/
theorem C4_witness :
    (deploy_to_github_pages envConflictFound (some "tok") "site" threeFiles true).2 =
      .ok [("url", "https://u.github.io/site/")] := by
  have h := (C4_conflict_handling envConflictFound (some "tok") "site" threeFiles true "u"
    rfl rfl rfl (by decide)).1 rfl rfl
  rw [h.1]
  rfl

/-! ### Claim C5 -/

theorem finishDeploy_putPaths (env : GitHubEnv) (u r : String)
    (files : List (String × String)) :
    (finishDeploy env u r files).1.filterMap putPath = files.map Prod.fst := by
  simp only [finishDeploy]
  split
  · exact uploadFiles_putPaths env u r files
  · rw [List.filterMap_append, uploadFiles_putPaths]
    simp [putPath]

theorem finishDeploy_ok {env : GitHubEnv} {u r : String}
    {files : List (String × String)} {res : List (String × String)}
    (h : (finishDeploy env u r files).2 = .ok res) :
    res = [("url", "https://" ++ u ++ ".github.io/" ++ r ++ "/")] ∧
    1 ≤ successCount env files := by
  simp only [finishDeploy] at h
  split at h
  · exact Except.noConfusion h
  · next hcnt =>
    refine ⟨(Except.ok.inj h).symm, ?_⟩
    rw [uploadFiles_count] at hcnt
    omega

theorem urlString_ne_empty (u r : String) :
    ("https://" ++ u ++ ".github.io/" ++ r ++ "/") ≠ "" := by
  intro h
  have hd := congrArg String.data h
  have hs : ("/" : String).data = ['/'] := rfl
  have he : ("" : String).data = [] := rfl
  simp [String.data_append, hs, he] at hd

/-- C5: the upload step issues one upload request per file, in FileSet
order, regardless of individual failures (no file's failure aborts the
rest); a zero success count fails the call with the upload error; and a
successful call returns a non-empty URL only ever alongside at least one
successful upload. -/
theorem C5_best_effort_uploads (env : GitHubEnv) (t : Option String) (raw : String)
    (files : List (String × String)) (pub : Bool) (u : String)
    (ht : tokenFalsy t = false) (hu : env.userStatus = 200)
    (hl : env.userLogin = some u) (hne : u ≠ "")
    (hcOk : env.createStatus = 201 ∨ (env.createStatus = 422 ∧ env.checkStatus = 200)) :
    ((deploy_to_github_pages env t raw files pub).1.filterMap putPath =
      files.map Prod.fst) ∧
    (successCount env files = 0 →
      (deploy_to_github_pages env t raw files pub).2 = .error .allUploadsFailed) ∧
    (∀ res, (deploy_to_github_pages env t raw files pub).2 = .ok res →
      res.lookup "url" = some ("https://" ++ u ++ ".github.io/" ++
        resolvedRepoName env (sanitizeRepoName raw) ++ "/") ∧
      ("https://" ++ u ++ ".github.io/" ++
        resolvedRepoName env (sanitizeRepoName raw) ++ "/") ≠ "" ∧
      1 ≤ successCount env files) := by
  rcases hcOk with hc | ⟨hc, hk⟩
  · rw [deploy_reach_201 env t raw files pub u ht hu hl hne hc]
    have hres : resolvedRepoName env (sanitizeRepoName raw) =
        env.createdName.getD (sanitizeRepoName raw) := by
      simp [resolvedRepoName, hc]
    refine ⟨?_, fun h0 => ?_, fun res hok => ?_⟩
    · simp only [List.filterMap_cons, putPath]
      exact finishDeploy_putPaths env u _ files
    · rw [(finishDeploy_result env u (env.createdName.getD (sanitizeRepoName raw)) files).1 h0]
    · obtain ⟨hres', hcnt⟩ := finishDeploy_ok hok
      subst hres'
      rw [hres]
      exact ⟨rfl, urlString_ne_empty _ _, hcnt⟩
  · rw [deploy_reach_422 env t raw files pub u ht hu hl hne hc hk]
    have hres : resolvedRepoName env (sanitizeRepoName raw) = sanitizeRepoName raw := by
      simp [resolvedRepoName, hc]
    refine ⟨?_, fun h0 => ?_, fun res hok => ?_⟩
    · simp only [List.filterMap_cons, putPath]
      exact finishDeploy_putPaths env u _ files
    · rw [(finishDeploy_result env u (sanitizeRepoName raw) files).1 h0]
    · obtain ⟨hres', hcnt⟩ := finishDeploy_ok hok
      subst hres'
      rw [hres]
      exact ⟨rfl, urlString_ne_empty _ _, hcnt⟩

/-- C5, witness: on the 2-of-3 double every file gets its upload request
and the successful call reports the URL with two successful uploads. -/
theorem C5_witness :
    (deploy_to_github_pages envTwoOfThree (some "tok") "site" threeFiles true).1.filterMap
      putPath = ["a.txt", "b.txt", "c.txt"] ∧
    1 ≤ successCount envTwoOfThree threeFiles := by
  have h := C5_best_effort_uploads envTwoOfThree (some "tok") "site" threeFiles true "u"
    rfl rfl rfl (by decide) (Or.inl rfl)
  refine ⟨h.1, (h.2.2 [("url", "https://u.github.io/site/")] rfl).2.2⟩

/-! ### Claim C8 -/

theorem finishDeploy_pages_iff (env : GitHubEnv) (u r : String)
    (files : List (String × String)) :
    (∃ o rp, Request.enablePages o rp ∈ (finishDeploy env u r files).1) ↔
      1 ≤ succUploads env (finishDeploy env u r files).1 := by
  simp only [finishDeploy]
  split
  next h =>
    constructor
    · rintro ⟨o, rp, hm⟩
      exact absurd hm (uploadFiles_no_pages env u r files o rp)
    · intro hle
      rw [uploadFiles_succUploads] at hle
      omega
  next h =>
    constructor
    · intro _
      rw [succUploads_append, uploadFiles_succUploads]
      omega
    · intro _
      exact ⟨u, r, by simp⟩

theorem pages_mem_cons_iff (a : Request) (tr : List Request)
    (hnp : ∀ o rp, a ≠ Request.enablePages o rp) :
    (∃ o rp, Request.enablePages o rp ∈ a :: tr) ↔
      (∃ o rp, Request.enablePages o rp ∈ tr) := by
  constructor
  · rintro ⟨o, rp, hm⟩
    rw [List.mem_cons] at hm
    rcases hm with h | h
    · exact absurd h.symm (hnp o rp)
    · exact ⟨o, rp, h⟩
  · rintro ⟨o, rp, hm⟩
    exact ⟨o, rp, List.mem_cons_of_mem a hm⟩

theorem uploadFiles_pagesIrrel (us : Nat) (ul : Option String) (ut : String)
    (cs : Nat) (cn : Option String) (ct : String) (ck : Nat)
    (fg : String → Nat) (fsh : String → Option String) (fp : String → Nat)
    (ps1 : Nat) (pr1 : Bool) (ps2 : Nat) (pr2 : Bool) (u r : String)
    (files : List (String × String)) :
    uploadFiles ⟨us, ul, ut, cs, cn, ct, ck, fg, fsh, fp, ps1, pr1⟩ u r files =
      uploadFiles ⟨us, ul, ut, cs, cn, ct, ck, fg, fsh, fp, ps2, pr2⟩ u r files := by
  induction files with
  | nil => rfl
  | cons f tl ih =>
    obtain ⟨name, content⟩ := f
    simp only [uploadFiles]
    rw [ih]

theorem deploy_pagesIrrel (us : Nat) (ul : Option String) (ut : String)
    (cs : Nat) (cn : Option String) (ct : String) (ck : Nat)
    (fg : String → Nat) (fsh : String → Option String) (fp : String → Nat)
    (ps1 : Nat) (pr1 : Bool) (ps2 : Nat) (pr2 : Bool) (t : Option String)
    (raw : String) (files : List (String × String)) (pub : Bool) :
    deploy_to_github_pages ⟨us, ul, ut, cs, cn, ct, ck, fg, fsh, fp, ps1, pr1⟩
        t raw files pub =
      deploy_to_github_pages ⟨us, ul, ut, cs, cn, ct, ck, fg, fsh, fp, ps2, pr2⟩
        t raw files pub := by
  unfold deploy_to_github_pages
  cases ul with
  | none => rfl
  | some username =>
    simp only [finishDeploy]
    rw [uploadFiles_pagesIrrel us (some username) ut cs cn ct ck fg fsh fp ps1 pr1 ps2 pr2
      username (cn.getD (sanitizeRepoName raw)) files,
      uploadFiles_pagesIrrel us (some username) ut cs cn ct ck fg fsh fp ps1 pr1 ps2 pr2
      username (sanitizeRepoName raw) files]

/-- C8: the pages request appears in the request trace exactly when at
least one upload request succeeded, and the outcome of the pages call is
swallowed: the whole call's result is the same for every pages-step
response or exception. -/
theorem C8_pages_enable (env : GitHubEnv) (t : Option String) (raw : String)
    (files : List (String × String)) (pub : Bool) :
    ((∃ o rp, Request.enablePages o rp ∈ (deploy_to_github_pages env t raw files pub).1) ↔
      1 ≤ succUploads env (deploy_to_github_pages env t raw files pub).1) ∧
    (∀ ps1 pr1 ps2 pr2,
      deploy_to_github_pages { env with pagesStatus := ps1, pagesRaises := pr1 }
          t raw files pub =
        deploy_to_github_pages { env with pagesStatus := ps2, pagesRaises := pr2 }
          t raw files pub) := by
  constructor
  · by_cases h0 : tokenFalsy t = true
    · simp [deploy_to_github_pages, h0, succUploads]
    · rw [Bool.not_eq_true] at h0
      by_cases h1 : env.userStatus = 200
      · cases hl : env.userLogin with
        | none =>
          have hd : deploy_to_github_pages env t raw files pub =
              ([Request.getUser], .error .noUsername) := by
            unfold deploy_to_github_pages
            rw [h0, hl]
            simp [h1]
          rw [hd]
          simp [succUploads]
        | some u =>
          by_cases h2 : u = ""
          · subst h2
            have hd : deploy_to_github_pages env t raw files pub =
                ([Request.getUser], .error .noUsername) := by
              unfold deploy_to_github_pages
              rw [h0, hl]
              simp [h1]
            rw [hd]
            simp [succUploads]
          · by_cases h3 : env.createStatus = 201
            · rw [deploy_reach_201 env t raw files pub u h0 h1 hl h2 h3]
              rw [pages_mem_cons_iff _ _ (fun o rp h => Request.noConfusion h),
                pages_mem_cons_iff _ _ (fun o rp h => Request.noConfusion h)]
              have hpre : succUploads env (Request.getUser ::
                  Request.createRepo (sanitizeRepoName raw) (!pub) ::
                  (finishDeploy env u (env.createdName.getD (sanitizeRepoName raw)) files).1) =
                  succUploads env
                    (finishDeploy env u (env.createdName.getD (sanitizeRepoName raw)) files).1 := by
                simp [succUploads, List.filter_cons]
              rw [hpre]
              exact finishDeploy_pages_iff env u _ files
            · by_cases h4 : env.createStatus = 422
              · by_cases h5 : env.checkStatus = 200
                · rw [deploy_reach_422 env t raw files pub u h0 h1 hl h2 h4 h5]
                  rw [pages_mem_cons_iff _ _ (fun o rp h => Request.noConfusion h),
                    pages_mem_cons_iff _ _ (fun o rp h => Request.noConfusion h),
                    pages_mem_cons_iff _ _ (fun o rp h => Request.noConfusion h)]
                  have hpre : succUploads env (Request.getUser ::
                      Request.createRepo (sanitizeRepoName raw) (!pub) ::
                      Request.getRepo u (sanitizeRepoName raw) ::
                      (finishDeploy env u (sanitizeRepoName raw) files).1) =
                      succUploads env (finishDeploy env u (sanitizeRepoName raw) files).1 := by
                    simp [succUploads, List.filter_cons]
                  rw [hpre]
                  exact finishDeploy_pages_iff env u _ files
                · rw [deploy_conflict_fail env t raw files pub u h0 h1 hl h2 h4 h5]
                  simp [succUploads]
              · rw [deploy_create_fail env t raw files pub u h0 h1 hl h2 h3 h4]
                simp [succUploads]
      · have hd : deploy_to_github_pages env t raw files pub =
            ([Request.getUser], .error (.invalidToken env.userText)) := by
          unfold deploy_to_github_pages
          rw [h0]
          simp [h1]
        rw [hd]
        simp [succUploads]
  · intro ps1 pr1 ps2 pr2
    obtain ⟨us, ul, ut, cs, cn, ct, ck, fg, fsh, fp, ps, pr⟩ := env
    exact deploy_pagesIrrel us ul ut cs cn ct ck fg fsh fp ps1 pr1 ps2 pr2 t raw files pub

/-! ### Claim C10 -/

theorem sanitize_all_slash {s : String}
    (hall : (pyStrip s).data.all (fun c => c = '/') = true) :
    sanitizeRepoName s = "" := by
  have hr : rstripSlash (pyStrip s).data = [] := by
    unfold rstripSlash
    have hd : (pyStrip s).data.reverse.dropWhile (fun c => decide (c = '/')) = [] := by
      rw [List.dropWhile_eq_nil_iff]
      intro x hx
      rw [List.mem_reverse] at hx
      have := List.all_eq_true.mp hall x hx
      simpa using this
    rw [hd]
    rfl
  by_cases hany : ((pyStrip s).data.any fun c => decide (c = '/')) = true
  · simp only [sanitizeRepoName]
    rw [if_pos hany, hr]
    rfl
  · have hn : (pyStrip s).data = [] := by
      cases hcs : (pyStrip s).data with
      | nil => rfl
      | cons c tcs =>
        rw [hcs] at hall hany
        simp only [List.all_cons, Bool.and_eq_true, decide_eq_true_eq] at hall
        simp [List.any_cons, hall.1] at hany
    simp only [sanitizeRepoName]
    rw [if_neg hany, hn]
    rfl

/-- C10: a raw repository name that trims to nothing but slashes
sanitizes to the empty string, and `deploy` performs no local name
validation: once the token and identity checks pass, the creation request
carrying the empty repository name is issued to the service. -/
theorem C10_empty_name_still_requested (s : String) (env : GitHubEnv)
    (t : Option String) (files : List (String × String)) (pub : Bool) (u : String)
    (hall : (pyStrip s).data.all (fun c => c = '/') = true)
    (ht : tokenFalsy t = false) (hu : env.userStatus = 200)
    (hl : env.userLogin = some u) (hne : u ≠ "") :
    sanitizeRepoName s = "" ∧
    Request.createRepo "" (!pub) ∈ (deploy_to_github_pages env t s files pub).1 := by
  have hs : sanitizeRepoName s = "" := sanitize_all_slash hall
  refine ⟨hs, ?_⟩
  by_cases h3 : env.createStatus = 201
  · rw [deploy_reach_201 env t s files pub u ht hu hl hne h3, hs]
    simp
  · by_cases h4 : env.createStatus = 422
    · by_cases h5 : env.checkStatus = 200
      · rw [deploy_reach_422 env t s files pub u ht hu hl hne h4 h5, hs]
        simp
      · rw [deploy_conflict_fail env t s files pub u ht hu hl hne h4 h5, hs]
        simp
    · rw [deploy_create_fail env t s files pub u ht hu hl hne h3 h4, hs]
      simp

/-- C10, witness: the raw name `"///"` on the cooperative double: the
sanitized name is empty and the creation request with the empty name is
issued. -/
theorem C10_witness :
    sanitizeRepoName "///" = "" ∧
    Request.createRepo "" (!true) ∈
      (deploy_to_github_pages envBase (some "tok") "///" threeFiles true).1 :=
  C10_empty_name_still_requested "///" envBase (some "tok") threeFiles true "u"
    (by decide) rfl rfl rfl (by decide)


/-! ### Serializer-parser round trip on plain content

For FileSets whose names and contents use only printable ASCII without
quotes or backslashes, `dumps` emits them verbatim and the parser reads
them back exactly; this discharges the parse-back condition of the C9
theorem for every such FileSet. -/

/-- A character `json.dumps` emits verbatim and the string parser
consumes verbatim: printable ASCII, no quote, no backslash. -/
def plainChar (c : Char) : Bool :=
  32 ≤ c.toNat && c.toNat ≤ 126 && !(c == '"') && !(c == '\\')

/-- A string of plain characters. -/
def plainStr (s : String) : Bool := s.data.all plainChar

/-- A FileSet of plain names mapped to plain string contents. -/
def plainFileSet (kvs : List (String × Json)) : Bool :=
  kvs.all (fun e => plainStr e.1 &&
    (match e.2 with | .str s => plainStr s | _ => false))

theorem escapeCharAscii_plain {c : Char} (h : plainChar c = true) :
    escapeCharAscii c = [c] := by
  simp only [plainChar, Bool.and_eq_true, Bool.not_eq_true', beq_eq_false_iff_ne,
    decide_eq_true_eq] at h
  obtain ⟨⟨⟨h1, h2⟩, h3⟩, h4⟩ := h
  unfold escapeCharAscii
  rw [if_neg h4, if_neg h3]
  rw [if_neg (fun he => by rw [he] at h1; exact absurd h1 (by decide))]
  rw [if_neg (fun he => by rw [he] at h1; exact absurd h1 (by decide))]
  rw [if_neg (fun he => by rw [he] at h1; exact absurd h1 (by decide))]
  rw [if_neg (fun he => by rw [he] at h1; exact absurd h1 (by decide))]
  rw [if_neg (fun he => by rw [he] at h1; exact absurd h1 (by decide))]
  rw [if_neg (by omega)]

theorem flatten_map_escape {l : List Char} (h : l.all plainChar = true) :
    (l.map escapeCharAscii).flatten = l := by
  induction l with
  | nil => rfl
  | cons c t ih =>
    rw [List.all_cons, Bool.and_eq_true] at h
    simp only [List.map_cons, List.flatten_cons, escapeCharAscii_plain h.1, ih h.2]
    rfl

theorem dumpJString_plain {s : String} (h : plainStr s = true) :
    dumpJString s = '"' :: s.data ++ ['"'] := by
  unfold dumpJString
  rw [flatten_map_escape h]

theorem parseJString_quote (f : Nat) (rest : List Char) :
    parseJString (Nat.succ f) ('"' :: rest) = some ([], rest) := by
  unfold parseJString
  rw [if_pos rfl]

theorem parseJString_plain {l : List Char} (rest : List Char)
    (h : l.all plainChar = true) :
    ∀ fuel, l.length + 1 ≤ fuel →
      parseJString fuel (l ++ '"' :: rest) = some (l, rest) := by
  induction l with
  | nil =>
    intro fuel hf
    cases fuel with
    | zero => omega
    | succ f => exact parseJString_quote f rest
  | cons c t ih =>
    intro fuel hf
    rw [List.all_cons, Bool.and_eq_true] at h
    have hp := h.1
    simp only [plainChar, Bool.and_eq_true, Bool.not_eq_true', beq_eq_false_iff_ne,
      decide_eq_true_eq] at hp
    obtain ⟨⟨⟨h1, h2⟩, h3⟩, h4⟩ := hp
    cases fuel with
    | zero => omega
    | succ f =>
      show parseJString (Nat.succ f) (c :: (t ++ '"' :: rest)) = _
      unfold parseJString
      rw [if_neg h3, if_neg h4, if_neg (by omega),
        ih h.2 f (by simpa using Nat.le_of_succ_le_succ hf)]
      rfl

theorem containsKey_eq_false_of_not_mem_keys {kvs : List (String × Json)} {k : String}
    (h : k ∉ kvs.map Prod.fst) : containsKey kvs k = false := by
  induction kvs with
  | nil => rfl
  | cons e t ih =>
    rw [List.map_cons, List.mem_cons, not_or] at h
    simp only [containsKey, List.any_cons, Bool.or_eq_false_iff]
    refine ⟨beq_eq_false_iff_ne.mpr (fun he => h.1 he.symm), ?_⟩
    simpa [containsKey] using ih h.2

theorem dictSet_append {acc : List (String × Json)} {k : String}
    (h : containsKey acc k = false) (v : Json) :
    dictSet acc k v = acc ++ [(k, v)] := by
  induction acc with
  | nil => rfl
  | cons e t ih =>
    simp only [containsKey, List.any_cons, Bool.or_eq_false_iff] at h
    simp only [dictSet, beq_eq_false_iff_ne.mp h.1, if_false, List.cons_append]
    rw [ih (by simpa [containsKey] using h.2)]

theorem skipWs_space (l : List Char) : skipWs (' ' :: l) = skipWs l := by
  simp [skipWs, List.dropWhile_cons, jsonWsChar]

theorem skipWs_not_ws {c : Char} (l : List Char) (h : jsonWsChar c = false) :
    skipWs (c :: l) = c :: l := by
  simp [skipWs, List.dropWhile_cons, h]

set_option maxHeartbeats 2000000 in
theorem parseVal_str (f : Nat) (s : String) (rest : List Char)
    (hp : plainStr s = true) :
    parseVal (Nat.succ f) ('"' :: (s.data ++ '"' :: rest)) = some (.str s, rest) := by
  conv_lhs => rw [parseVal]
  show (parseJString ((s.data ++ '"' :: rest).length + 1) (s.data ++ '"' :: rest)).map
    (fun p => (Json.str (String.mk p.1), p.2)) = _
  rw [parseJString_plain rest hp ((s.data ++ '"' :: rest).length + 1)
    (by simp [List.length_append])]
  rfl

theorem skipWs_dumpMembers_cons (k2 : String) (v2 : Json) (t2 : List (String × Json))
    (X : List Char) :
    skipWs (dumpMembers ((k2, v2) :: t2) ++ X) = dumpMembers ((k2, v2) :: t2) ++ X := by
  cases t2 with
  | nil =>
    rw [dumpMembers]
    simp only [dumpJString, List.cons_append, List.append_assoc]
    exact skipWs_not_ws _ (by rfl)
  | cons mm tt =>
    rw [dumpMembers]
    simp only [dumpJString, List.cons_append, List.append_assoc]
    exact skipWs_not_ws _ (by rfl)

set_option maxHeartbeats 2000000 in
theorem parseMembers_dump :
    ∀ (kvs acc : List (String × Json)) (rest : List Char),
      plainFileSet kvs = true →
      ((acc ++ kvs).map Prod.fst).Nodup →
      ∀ fuel, kvs.length + 1 ≤ fuel → kvs ≠ [] →
        parseMembers fuel acc (dumpMembers kvs ++ '\x7d' :: rest) =
          some (acc ++ kvs, rest) := by
  intro kvs
  induction kvs with
  | nil => intro acc rest _ _ fuel _ hne; exact absurd rfl hne
  | cons e t ih =>
    obtain ⟨k, v⟩ := e
    intro acc rest hpl hnd fuel hf _
    rw [plainFileSet, List.all_cons, Bool.and_eq_true] at hpl
    obtain ⟨hkv, ht⟩ := hpl
    rw [Bool.and_eq_true] at hkv
    obtain ⟨hk, hv⟩ := hkv
    cases v with
    | null => exact absurd hv (by simp)
    | bool b => exact absurd hv (by simp)
    | num lx => exact absurd hv (by simp)
    | arr xs => exact absurd hv (by simp)
    | obj o => exact absurd hv (by simp)
    | str s =>
      have hknotin : containsKey acc k = false := by
        apply containsKey_eq_false_of_not_mem_keys
        rw [List.map_append] at hnd
        intro hmem
        exact (List.nodup_append.mp hnd).2.2 hmem (by simp)
      cases fuel with
      | zero => omega
      | succ f =>
        cases t with
        | nil =>
          have hshape : dumpMembers [(k, Json.str s)] ++ '\x7d' :: rest =
              '"' :: (k.data ++ '"' :: ':' :: ' ' ::
                ('"' :: (s.data ++ '"' :: '\x7d' :: rest))) := by
            rw [dumpMembers]
            rw [show dumpVal (.str s) = dumpJString s from rfl]
            rw [dumpJString_plain hk, dumpJString_plain hv]
            simp [List.append_assoc]
          rw [hshape, parseMembers]
          rw [parseJString_plain _ hk _ (by simp [List.length_append])]
          have hv2 : plainStr s = true := hv
          simp only []
          rw [skipWs_not_ws _ (by rfl)]
          simp only []
          rw [skipWs_space, skipWs_not_ws _ (by rfl)]
          cases f with
          | zero => simp at hf
          | succ f2 =>
            rw [parseVal_str f2 s ('\x7d' :: rest) hv2]
            simp only []
            rw [skipWs_not_ws _ (by rfl)]
            simp only []
            rw [show (String.mk k.data) = k from rfl, dictSet_append hknotin]
        | cons m t2 =>
          obtain ⟨k2, v2⟩ := m
          have hshape : dumpMembers ((k, Json.str s) :: (k2, v2) :: t2) ++ '\x7d' :: rest =
              '"' :: (k.data ++ '"' :: ':' :: ' ' ::
                ('"' :: (s.data ++ '"' :: ',' :: ' ' ::
                  (dumpMembers ((k2, v2) :: t2) ++ '\x7d' :: rest)))) := by
            rw [dumpMembers]
            rw [show dumpVal (.str s) = dumpJString s from rfl]
            rw [dumpJString_plain hk, dumpJString_plain hv]
            simp [List.append_assoc]
          rw [hshape, parseMembers]
          rw [parseJString_plain _ hk _ (by simp [List.length_append])]
          have hv2 : plainStr s = true := hv
          simp only []
          rw [skipWs_not_ws _ (by rfl)]
          simp only []
          rw [skipWs_space, skipWs_not_ws _ (by rfl)]
          cases f with
          | zero => simp at hf
          | succ f2 =>
            rw [parseVal_str f2 s (',' :: ' ' ::
              (dumpMembers ((k2, v2) :: t2) ++ '\x7d' :: rest)) hv2]
            simp only []
            rw [skipWs_not_ws _ (by rfl)]
            simp only []
            rw [skipWs_space, skipWs_dumpMembers_cons]
            rw [show (String.mk k.data) = k from rfl, dictSet_append hknotin]
            rw [ih (acc ++ [(k, Json.str s)]) rest ht
              (by simpa [List.append_assoc] using hnd)
              (Nat.succ f2) (by simp at hf ⊢; omega) (by simp)]
            simp [List.append_assoc]

theorem dumpMembers_cons_head (k2 : String) (v2 : Json) (t2 : List (String × Json)) :
    ∃ tl, dumpMembers ((k2, v2) :: t2) = '"' :: tl := by
  cases t2 with
  | nil =>
    rw [dumpMembers]
    simp only [dumpJString, List.cons_append, List.append_assoc]
    exact ⟨_, rfl⟩
  | cons mm tt =>
    rw [dumpMembers]
    simp only [dumpJString, List.cons_append, List.append_assoc]
    exact ⟨_, rfl⟩

set_option maxHeartbeats 2000000 in
theorem parseVal_obj (fkvs : List (String × Json)) (rest : List Char)
    (hpl : plainFileSet fkvs = true) (hnd : (fkvs.map Prod.fst).Nodup) :
    ∀ fl, fkvs.length + 2 ≤ fl →
      parseVal fl ('\x7b' :: (dumpMembers fkvs ++ '\x7d' :: rest)) =
        some (.obj fkvs, rest) := by
  intro fl hfl
  cases fl with
  | zero => omega
  | succ f =>
    conv_lhs => rw [parseVal]
    show (match skipWs (dumpMembers fkvs ++ '\x7d' :: rest) with
        | '\x7d' :: r2 => some (Json.obj [], r2)
        | cs2 => (parseMembers f [] cs2).map
            (fun (p : List (String × Json) × List Char) => (Json.obj p.1, p.2))) = _
    cases fkvs with
    | nil =>
      show (match skipWs ('\x7d' :: rest) with
          | '\x7d' :: r2 => some (Json.obj [], r2)
          | cs2 => (parseMembers f [] cs2).map
              (fun (p : List (String × Json) × List Char) => (Json.obj p.1, p.2))) = _
      rw [skipWs_not_ws _ (by rfl)]
      rfl
    | cons e t =>
      obtain ⟨k2, v2⟩ := e
      obtain ⟨tl, htl⟩ := dumpMembers_cons_head k2 v2 t
      rw [htl, List.cons_append, skipWs_not_ws _ (by rfl)]
      show (parseMembers f [] ('"' :: (tl ++ '\x7d' :: rest))).map
          (fun (p : List (String × Json) × List Char) => (Json.obj p.1, p.2)) = _
      rw [← List.cons_append, ← htl]
      rw [parseMembers_dump ((k2, v2) :: t) [] rest hpl (by simpa using hnd) f
        (by simp at hfl ⊢; omega) (by simp)]
      rfl

theorem dumpMembers_length (kvs : List (String × Json)) :
    kvs.length ≤ (dumpMembers kvs).length := by
  induction kvs with
  | nil =>
    rw [show dumpMembers [] = [] from rfl]
    exact Nat.le_refl 0
  | cons e t ih =>
    obtain ⟨k, v⟩ := e
    cases t with
    | nil =>
      rw [dumpMembers]
      simp [dumpJString, List.length_append]
    | cons m t2 =>
      rw [dumpMembers]
      simp only [List.length_append, List.length_cons] at ih ⊢
      simp [dumpJString, List.length_append]
      omega

set_option maxHeartbeats 2000000 in
theorem parseMembers_wrapper (fkvs : List (String × Json)) (rest : List Char)
    (hpl : plainFileSet fkvs = true) (hnd : (fkvs.map Prod.fst).Nodup) :
    ∀ fl, fkvs.length + 3 ≤ fl →
      parseMembers fl [] (dumpMembers [("files", Json.obj fkvs)] ++ '\x7d' :: rest) =
        some ([("files", Json.obj fkvs)], rest) := by
  intro fl hfl
  cases fl with
  | zero => omega
  | succ f =>
    have hshape : dumpMembers [("files", Json.obj fkvs)] ++ '\x7d' :: rest =
        '"' :: (("files" : String).data ++ '"' :: ':' :: ' ' ::
          ('\x7b' :: (dumpMembers fkvs ++ '\x7d' :: '\x7d' :: rest))) := by
      rw [dumpMembers, dumpVal, dumpJString_plain (show plainStr "files" = true from rfl)]
      simp [List.append_assoc]
    rw [hshape, parseMembers]
    rw [parseJString_plain _ (show (("files" : String).data.all plainChar) = true from rfl)
      _ (by simp [List.length_append])]
    simp only []
    rw [skipWs_not_ws _ (by rfl)]
    simp only []
    rw [skipWs_space, skipWs_not_ws _ (by rfl)]
    rw [parseVal_obj fkvs ('\x7d' :: rest) hpl hnd f (by omega)]
    simp only []
    rw [skipWs_not_ws _ (by rfl)]
    simp only []
    rfl

set_option maxHeartbeats 2000000 in
theorem parseVal_wrapper (fkvs : List (String × Json)) (rest : List Char)
    (hpl : plainFileSet fkvs = true) (hnd : (fkvs.map Prod.fst).Nodup) :
    ∀ fl, fkvs.length + 4 ≤ fl →
      parseVal fl ('\x7b' :: (dumpMembers [("files", Json.obj fkvs)] ++ '\x7d' :: rest)) =
        some (.obj [("files", Json.obj fkvs)], rest) := by
  intro fl hfl
  cases fl with
  | zero => omega
  | succ f =>
    conv_lhs => rw [parseVal]
    show (match skipWs (dumpMembers [("files", Json.obj fkvs)] ++ '\x7d' :: rest) with
        | '\x7d' :: r2 => some (Json.obj [], r2)
        | cs2 => (parseMembers f [] cs2).map
            (fun (p : List (String × Json) × List Char) => (Json.obj p.1, p.2))) = _
    obtain ⟨tl, htl⟩ := dumpMembers_cons_head "files" (Json.obj fkvs) []
    rw [htl, List.cons_append, skipWs_not_ws _ (by rfl)]
    show (parseMembers f [] ('"' :: (tl ++ '\x7d' :: rest))).map
        (fun (p : List (String × Json) × List Char) => (Json.obj p.1, p.2)) = _
    rw [← List.cons_append, ← htl]
    rw [parseMembers_wrapper fkvs rest hpl hnd f (by omega)]
    rfl

set_option maxHeartbeats 2000000 in
theorem json_loads_dumps_wrapped (fkvs : List (String × Json))
    (hpl : plainFileSet fkvs = true) (hnd : (fkvs.map Prod.fst).Nodup) :
    json_loads (dumps (Json.obj [("files", Json.obj fkvs)])) =
      some (Json.obj [("files", Json.obj fkvs)]) := by
  have hcs : (dumps (Json.obj [("files", Json.obj fkvs)])).data =
      '\x7b' :: (dumpMembers [("files", Json.obj fkvs)] ++ '\x7d' :: []) := by
    show dumpVal (Json.obj [("files", Json.obj fkvs)]) = _
    rw [dumpVal, List.cons_append]
  have hlen : 4 + fkvs.length ≤
      ('\x7b' :: (dumpMembers [("files", Json.obj fkvs)] ++ '\x7d' :: [])).length := by
    have h1 := dumpMembers_length fkvs
    have h2 : dumpMembers [("files", Json.obj fkvs)] =
        dumpJString "files" ++ ':' :: ' ' :: dumpVal (Json.obj fkvs) := by
      rw [dumpMembers]
    have h3 : dumpVal (Json.obj fkvs) = '\x7b' :: dumpMembers fkvs ++ ['\x7d'] := by
      rw [dumpVal]
    rw [h2, h3]
    simp [dumpJString, List.length_append]
    omega
  unfold json_loads
  rw [hcs, skipWs_not_ws _ (by rfl)]
  rw [parseVal_wrapper fkvs [] hpl hnd _ (by omega)]
  rfl

/-- C9 (amended): every FileSet produced by a successful `coerce` call
contains the three canonical keys, and re-coercion is the identity only
when the FileSet is re-serialized wrapped under a `files` key: whenever
that wrapped serialization parses back to the wrapped object, coercing it
returns the same FileSet — unconditionally so for FileSets of
printable-ASCII names and string contents with distinct names, by the
serializer-parser round trip.  Re-serializing the FileSet itself instead
yields the default FileSet (see the counterexample). -/
theorem C9_reserialize_wrapped (prompt raw : String) (fkvs : List (String × Json))
    (h : coerce prompt "None" raw = .ok (.obj fkvs)) :
    (containsKey fkvs "index.html" = true ∧
     containsKey fkvs "styles.css" = true ∧
     containsKey fkvs "script.js" = true) ∧
    (json_loads (dumps (.obj [("files", .obj fkvs)])) =
        some (.obj [("files", .obj fkvs)]) →
      coerce prompt "None" (dumps (.obj [("files", .obj fkvs)])) =
        .ok (.obj fkvs)) ∧
    (plainFileSet fkvs = true → (fkvs.map Prod.fst).Nodup →
      coerce prompt "None" (dumps (.obj [("files", .obj fkvs)])) =
        .ok (.obj fkvs)) := by
  have hkeys : containsKey fkvs "index.html" = true ∧
      containsKey fkvs "styles.css" = true ∧
      containsKey fkvs "script.js" = true := by
    unfold coerce at h
    cases hj : json_loads raw with
    | none => rw [hj] at h; exact Except.noConfusion h
    | some parsed =>
      rw [hj] at h
      cases parsed with
      | obj kvs =>
        obtain ⟨kvs0, -, hval⟩ := fillRequired_ok_obj h
        rw [hval]
        exact fillDefaults3_containsKey prompt kvs0
      | null => exact Except.noConfusion h
      | bool b => exact Except.noConfusion h
      | num lx => exact Except.noConfusion h
      | str s => exact Except.noConfusion h
      | arr xs => exact Except.noConfusion h
  have hcond : json_loads (dumps (.obj [("files", .obj fkvs)])) =
      some (.obj [("files", .obj fkvs)]) →
      coerce prompt "None" (dumps (.obj [("files", .obj fkvs)])) =
        .ok (.obj fkvs) := by
    intro hp
    unfold coerce
    rw [hp]
    show fillRequired prompt "None"
      ((List.lookup "files" [("files", Json.obj fkvs)]).getD (Json.obj [])) = _
    have : List.lookup "files" [("files", Json.obj fkvs)] = some (Json.obj fkvs) := rfl
    rw [this]
    show fillRequired prompt "None" (Json.obj fkvs) = _
    rw [fillRequired_obj, fillDefaults3_of_all_present prompt hkeys.1 hkeys.2.1 hkeys.2.2]
  exact ⟨hkeys, hcond,
    fun hpl hnd => hcond (json_loads_dumps_wrapped fkvs hpl hnd)⟩

/-- C9, witness: the amended claim applied to the concrete FileSet
`fsABC` (plain ASCII, distinct names): re-coercing its wrapped
serialization returns the same FileSet. -/
theorem C9_witness :
    containsKey fsABC "index.html" = true ∧
    coerce "p" "None" (dumps (Json.obj [("files", Json.obj fsABC)])) =
      .ok (.obj fsABC) := by
  have h := C9_reserialize_wrapped "p" filesetJson fsABC rfl
  exact ⟨h.1.1, h.2.2 (by decide) (by decide)⟩
